import Mathlib

/-!
Verification of the SoundDitect real-time detection core against its
natural-language specification.

The embedding is shallow: the Python functions of `backend/audio_processor.py`,
`backend/model_manager.py` and `backend/main.py` are translated into Lean
definitions over `List ℚ` (numpy float arrays become rational lists, so every
arithmetic step of the source is exact and executable).  A Python function that
may raise is modelled as returning `Option` (`none` = an exception escaped);
a `try/except` that swallows the exception is modelled by the corresponding
total recovery.  Library routines whose numerics live outside the repository
(librosa's resampler, scipy's filtfilt, numpy's sqrt, the torch forward pass)
are taken as function parameters: every theorem below holds for all
instantiations of those parameters, hence in particular for the real ones.
-/

namespace SoundDitect

/-! ## audio_processor.py -/

/-- Python list slicing `audio[-L:]` (numpy 1-d slicing behaves the same):
for `L > 0` it keeps the trailing `min L len` samples, while `audio[-0:]`
is the whole array. -/
def pySliceLast (L : ℕ) (audio : List ℚ) : List ℚ :=
  if L = 0 then audio else audio.drop (audio.length - L)

/-- `AudioProcessor._adjust_length` (audio_processor.py lines 135-147):
truncate to the trailing `target_length` samples when too long, zero-pad on
the right when too short. -/
def adjust_length (target_length : ℕ) (audio : List ℚ) : List ℚ :=
  if audio.length > target_length then
    pySliceLast target_length audio
  else if audio.length < target_length then
    audio ++ List.replicate (target_length - audio.length) 0
  else
    audio

/-- `np.mean` of a list; the source only evaluates it on nonempty input
(the empty case is routed through an exception handler, modelled separately). -/
def listMean (l : List ℚ) : ℚ := l.sum / l.length

/-- `np.max(np.abs(l))` for nonempty `l`; all entries are nonnegative so the
fold base `0` agrees with numpy's maximum on nonempty input. -/
def maxAbs (l : List ℚ) : ℚ := (l.map (fun x => |x|)).foldr max 0

/-- `AudioProcessor._normalize_audio` (audio_processor.py lines 119-133):
subtract the mean (DC offset), then divide by the maximum absolute amplitude
unless it is zero.  On empty input `np.max` raises and the surrounding
`except` returns the current array unchanged, hence the empty branch. -/
def normalize_audio (audio : List ℚ) : List ℚ :=
  if audio.length = 0 then audio
  else
    let centered := audio.map (fun x => x - listMean audio)
    let max_val := maxAbs centered
    if max_val > 0 then centered.map (fun x => x / max_val) else centered

/-- `AudioProcessor._apply_filter` (audio_processor.py lines 106-117):
`scipy.signal.filtfilt` is the parameter `filterF`; a filtering exception is
caught and the unfiltered audio returned. -/
def apply_filter_stage (filterF : List ℚ → Option (List ℚ)) (audio : List ℚ) :
    List ℚ :=
  (filterF audio).getD audio

/-- The truthiness test `if sample_rate and sample_rate != self.sample_rate`
of audio_processor.py line 82 (`None` and `0` are falsy in Python). -/
def resampleNeeded (sample_rate : Option ℕ) (target_rate : ℕ) : Bool :=
  match sample_rate with
  | none => false
  | some sr => sr ≠ 0 && sr ≠ target_rate

/-- `AudioProcessor.preprocess` (audio_processor.py lines 66-104).
The cast `astype(np.float32)` is the identity of this rational model; the
resampler `librosa.resample` is the parameter `resampleF` and its exceptions
reach `preprocess`'s own handler, which logs and RE-RAISES (line 104), hence
`none`.  Filtering and normalization recover internally; the length fit is
pure.  `applyFilter` and `normalizeB` are the two configuration toggles. -/
def preprocess (sample_rate : Option ℕ) (target_rate : ℕ)
    (resampleF filterF : List ℚ → Option (List ℚ))
    (applyFilter normalizeB : Bool) (target_length : ℕ)
    (audio : List ℚ) : Option (List ℚ) :=
  match (if resampleNeeded sample_rate target_rate then resampleF audio
         else some audio) with
  | none => none
  | some resampled =>
    let filtered := if applyFilter then apply_filter_stage filterF resampled
                    else resampled
    let normalized := if normalizeB then normalize_audio filtered else filtered
    some (adjust_length target_length normalized)

/-- `AudioProcessor.create_sliding_windows` (audio_processor.py lines 237-256).
`num_windows = (len - w) // h + 1` uses Python floor division (`Int.fdiv`);
`h = 0` raises `ZeroDivisionError`, a negative count makes `np.zeros` raise
`ValueError`, and a row assignment of a short slice would raise a broadcast
error — each modelled as `none`. -/
def create_sliding_windows (audio : List ℚ) (window_size hop_size : ℕ) :
    Option (List (List ℚ)) :=
  if hop_size = 0 then none
  else
    let n : ℤ := Int.fdiv ((audio.length : ℤ) - (window_size : ℤ)) hop_size + 1
    if n < 0 then none
    else
      let windows := (List.range n.toNat).map
        (fun i => (audio.drop (i * hop_size)).take window_size)
      if windows.all (fun w => w.length = window_size) then some windows
      else none

/-! ## model_manager.py — Baseline Heuristic Scorer -/

/-- The additive anomaly score of `ModelManager._get_baseline_prediction`
(model_manager.py lines 920-941), written exactly as the source accumulates
it: four conditional contributions added to `0.0`, then clamped to `[0, 1]`. -/
def anomaly_score (rms max_amplitude mean_amplitude variance : ℚ) : ℚ :=
  let s0 : ℚ := 0
  let s1 := s0 + (if max_amplitude > 3/10 then max_amplitude * (4/10) else 0)
  let s2 := s1 + (if rms > 5/100 then rms * (3/10) else 0)
  let s3 := s2 + (if variance > 1/100 then variance * (2/10) else 0)
  let dynamic_range := max_amplitude - mean_amplitude
  let s4 := s3 + (if dynamic_range > 1/10 then dynamic_range * (1/10) else 0)
  min 1 (max 0 s4)

/-- `ModelManager._get_baseline_prediction` (model_manager.py lines 902-961).
`np.sqrt` is transcendental, so it appears as the parameter `sqrtF`; every
other statistic (max/mean absolute amplitude, variance) is exact rational
arithmetic.  The function is total — the source catches every internal
exception (returning `(0, 0.5)`), and this model has none to catch. -/
def get_baseline_prediction (sqrtF : ℚ → ℚ) (audio : List ℚ) : ℤ × ℚ :=
  if audio.length = 0 then (0, 1/2)
  else
    let rms := sqrtF (listMean (audio.map (fun x => x ^ 2)))
    let max_amplitude := maxAbs audio
    let mean_amplitude := listMean (audio.map (fun x => |x|))
    let variance := listMean (audio.map (fun x => (x - listMean audio) ^ 2))
    let s := anomaly_score rms max_amplitude mean_amplitude variance
    if s > 4/10 then (1, min (8/10) (1/2 + s))
    else (0, max (3/10) (7/10 - s))

/-- The anomaly score of a (nonempty) signal, in the specification's phrasing:
the sum of the amplitude, RMS, variance and dynamic-range contributions,
clamped to `[0,1]`. -/
def signalAnomalyScore (sqrtF : ℚ → ℚ) (audio : List ℚ) : ℚ :=
  let rms := sqrtF (listMean (audio.map (fun x => x ^ 2)))
  let maxA := maxAbs audio
  let meanA := listMean (audio.map (fun x => |x|))
  let variance := listMean (audio.map (fun x => (x - listMean audio) ^ 2))
  min 1 (max 0
    ((if maxA > 3/10 then maxA * (4/10) else 0)
      + (if rms > 5/100 then rms * (3/10) else 0)
      + (if variance > 1/100 then variance * (2/10) else 0)
      + (if maxA - meanA > 1/10 then (maxA - meanA) * (1/10) else 0)))

/-! ## model_manager.py — ModelManager.predict -/

/-- `ModelManager.predict` (model_manager.py lines 843-900).
`modelLoaded` is `self.model is not None` on entry, `loadOk` the outcome of
the `load_model` attempt, and `forwardF` the whole torch evaluation
(forward pass, softmax, max) — `none` meaning it raised.  The `except` at
line 897 falls back to the baseline scorer applied to `audio_data` as it
stands when the exception occurs, i.e. after the length adjustment. -/
def predict (modelLoaded loadOk : Bool)
    (forwardF : List ℚ → Option (ℤ × ℚ)) (sqrtF : ℚ → ℚ)
    (input_length : ℕ) (audio : List ℚ) : ℤ × ℚ :=
  if modelLoaded = false ∧ loadOk = false then
    get_baseline_prediction sqrtF audio
  else if audio.length = 0 then (0, 1/2)
  else
    let fitted := if audio.length ≠ input_length then
                    adjust_length input_length audio
                  else audio
    match forwardF fitted with
    | some pc => pc
    | none => get_baseline_prediction sqrtF fitted

/-! ## main.py — process_audio_message (the Inference Orchestrator) -/

/-- The dictionary `process_audio_message` returns (main.py lines 299-407),
restricted to the fields the protocol layer consumes: prediction, confidence,
`audio_length`, and the optional `error` string that becomes the outbound
`warning`. -/
structure ResultDict where
  prediction : ℤ
  confidence : ℚ
  audio_length : ℕ
  error : Option String
  deriving Repr, DecidableEq

/-- `process_audio_message` (main.py lines 299-407).  `decodeOk` stands for
the base64/frombuffer decode succeeding; `audio` is the decoded sample list.
The body raises (`none`) on decode failure, on a preprocessing exception
(which line 353 re-wraps and re-raises), and on a failed model load
(line 360); the outer `except` at line 396 then returns the fixed default
`prediction 0, confidence 0.0` carrying the error string.  A successful path
calls `ModelManager.predict` with the model loaded. -/
def process_audio_message (decodeOk : Bool) (audio : List ℚ)
    (sample_rate : Option ℕ) (target_rate : ℕ)
    (resampleF filterF : List ℚ → Option (List ℚ))
    (applyFilter normalizeB : Bool) (input_length : ℕ)
    (modelLoaded loadOk : Bool)
    (forwardF : List ℚ → Option (ℤ × ℚ)) (sqrtF : ℚ → ℚ) : ResultDict :=
  let body : Option ResultDict :=
    if decodeOk = false then none
    else if audio.length = 0 then
      some ⟨0, 1/2, 0, some "Empty audio data"⟩
    else
      match preprocess sample_rate target_rate resampleF filterF
              applyFilter normalizeB input_length audio with
      | none => none
      | some processed =>
        if modelLoaded = false ∧ loadOk = false then none
        else
          let pc := predict true true forwardF sqrtF input_length processed
          some ⟨pc.1, pc.2, audio.length, none⟩
  body.getD ⟨0, 0, 0, some "processing exception"⟩

/-! ## main.py — websocket_audio_endpoint message loop -/

/-- The per-connection mutable state of `websocket_audio_endpoint`
(main.py lines 176-177): the bound `recording_session` (a client-supplied
id, `none` when unbound) and the `is_processing` flag. -/
structure ConnState where
  recording_session : Option String
  is_processing : Bool
  deriving Repr, DecidableEq

/-- Inbound protocol messages (main.py lines 192-287).  `session_id` fields
are `Option` because `data.get("session_id")` yields `None` when absent;
`audio_data` carries the opaque payload handed to `process_audio_message`. -/
inductive InMsg (α : Type) where
  | start_recording (session_id : Option String)
  | stop_recording (session_id : Option String)
  | audio_data (session_id : Option String) (payload : α)
  | ping
  | unknown (msgType : String)

/-- Outbound protocol messages emitted by the loop body. -/
inductive OutMsg where
  | recording_started (session_id : Option String)
  | recording_stopped (session_id : Option String)
  | detection_result (session_id : Option String) (result : ResultDict)
  | pong

/-- One iteration of the `while True` dispatch of `websocket_audio_endpoint`
(main.py lines 192-287), as a function from the connection state and the
inbound message to the new state and the messages sent.  `processF` is the
(always-returning) `process_audio_message` applied to an `audio_data`
payload.  A `stop_recording` whose id differs from the binding only logs
(line 219); an unknown type only logs (line 287). -/
def handle_message {α : Type} (processF : α → ResultDict)
    (st : ConnState) (m : InMsg α) : ConnState × List OutMsg :=
  match m with
  | .start_recording sid =>
      (⟨sid, true⟩, [.recording_started sid])
  | .stop_recording sid =>
      if sid = st.recording_session then
        (⟨none, false⟩, [.recording_stopped st.recording_session])
      else (st, [])
  | .audio_data sid payload =>
      if st.is_processing ∧ sid = st.recording_session then
        (st, [.detection_result st.recording_session (processF payload)])
      else (st, [])
  | .ping => (st, [.pong])
  | .unknown _ => (st, [])

/-! ## model_manager.py — AttentionLayer

Matrices are row lists (`Mat`); a batched tensor of one batch element is a
matrix per head.  Dropout is inactive in evaluation mode (the regime the
equivalence claim addresses), so it is the identity here.  The softmax over
the key axis, `torch.softmax(scores, dim=-1)`, acts independently on each
row of the score matrix; because `exp` is transcendental it is abstracted as
a per-row function `norm`, and likewise the scale `1/√head_dim` as a rational
`s` — both appear identically in the two code paths being compared. -/

abbrev Mat := List (List ℚ)

/-- Dot product of two rows. -/
def dotProd (a b : List ℚ) : ℚ := (List.zipWith (· * ·) a b).sum

/-- `torch.matmul` on 2-d operands: row `i` of the result is the vector of
dot products of row `i` of `A` against the columns of `B`. -/
def matMul (A B : Mat) : Mat :=
  A.map (fun row => (List.transpose B).map (fun col => dotProd row col))

/-- Elementwise scaling of a matrix (division by `√head_dim`, with
`s = 1/√head_dim`). -/
def matScale (s : ℚ) (M : Mat) : Mat := M.map (List.map (fun x => x * s))

/-- `torch.softmax(·, dim=-1)`: the row-wise normalizer applied to each row
of the score matrix. -/
def rowNorm (norm : List ℚ → List ℚ) (M : Mat) : Mat := M.map norm

/-- `nn.Linear`: affine image of every row. -/
def linearM (W : Mat) (b : List ℚ) (x : Mat) : Mat :=
  (matMul x W).map (fun row => List.zipWith (· + ·) row b)

/-- `view(batch, seq, H, d).transpose(1, 2)`: head `h` sees the contiguous
feature slice `[h*d, h*d + d)` of every sequence position. -/
def splitHeads (H d : ℕ) (M : Mat) : List Mat :=
  (List.range H).map (fun h => M.map (fun row => (row.drop (h * d)).take d))

/-- `transpose(1, 2).contiguous().view(batch, seq, hidden)`: at every
sequence position, concatenate the per-head feature vectors. -/
def mergeHeads (seq_len : ℕ) (heads : List Mat) : Mat :=
  (List.range seq_len).map (fun j => (heads.map (fun Hm => Hm.getD j [])).flatten)

/-- The per-head core shared by both attention paths
(model_manager.py lines 91-97 and 120-126):
`softmax(Q Kᵀ · s) V` with the row normalizer `norm`. -/
def attnHead (norm : List ℚ → List ℚ) (s : ℚ) (K V Q : Mat) : Mat :=
  matMul (rowNorm norm (matScale s (matMul Q (List.transpose K)))) V

/-- `for i in range(0, seq_len, chunk_size)`: split the query rows into
consecutive chunks of `c` rows (the last one possibly shorter).  Recursion is
on an explicit length fuel so the function is total also at `c = 0`. -/
def chunksGo (c : ℕ) : ℕ → List (List ℚ) → List Mat
  | _, [] => []
  | 0, _ :: _ => []
  | fuel + 1, x :: xs => (x :: xs).take c :: chunksGo c fuel ((x :: xs).drop c)

/-- Chunking a matrix's rows with chunk size `c`. -/
def chunkRows (c : ℕ) (Q : Mat) : List Mat := chunksGo c Q.length Q

/-- The chunked per-head attention of `_memory_efficient_attention`
(model_manager.py lines 114-130): attend each query chunk against the full
keys/values, then concatenate along the query axis (`torch.cat(…, dim=2)`). -/
def chunkedAttnHead (c : ℕ) (norm : List ℚ → List ℚ) (s : ℚ) (K V Q : Mat) :
    Mat :=
  ((chunkRows c Q).map (attnHead norm s K V)).flatten

/-- The weights of an `AttentionLayer`: the four `nn.Linear` modules
`query`, `key`, `value`, `output` (matrix and bias each). -/
structure AttnWeights where
  Wq : Mat
  bq : List ℚ
  Wk : Mat
  bk : List ℚ
  Wv : Mat
  bv : List ℚ
  Wo : Mat
  bo : List ℚ

/-- `AttentionLayer._standard_attention` (model_manager.py lines 84-103) for
one batch element: project to Q/K/V, split into `H` heads of width `d`, run
scaled dot-product attention per head, merge heads, output projection. -/
def standard_attention (w : AttnWeights) (norm : List ℚ → List ℚ) (s : ℚ)
    (H d : ℕ) (x : Mat) : Mat :=
  let Qh := splitHeads H d (linearM w.Wq w.bq x)
  let Kh := splitHeads H d (linearM w.Wk w.bk x)
  let Vh := splitHeads H d (linearM w.Wv w.bv x)
  let attended := (List.range H).map
    (fun h => attnHead norm s (Kh.getD h []) (Vh.getD h []) (Qh.getD h []))
  linearM w.Wo w.bo (mergeHeads x.length attended)

/-- `AttentionLayer._memory_efficient_attention` (model_manager.py lines
105-136) for one batch element: identical to `standard_attention` except the
per-head core processes the query rows in chunks of `chunk_size = 256`
(line 107). -/
def memory_efficient_attention (w : AttnWeights) (norm : List ℚ → List ℚ)
    (s : ℚ) (H d : ℕ) (x : Mat) : Mat :=
  let Qh := splitHeads H d (linearM w.Wq w.bq x)
  let Kh := splitHeads H d (linearM w.Wk w.bk x)
  let Vh := splitHeads H d (linearM w.Wv w.bv x)
  let attended := (List.range H).map
    (fun h =>
      chunkedAttnHead 256 norm s (Kh.getD h []) (Vh.getD h []) (Qh.getD h []))
  linearM w.Wo w.bo (mergeHeads x.length attended)

/-! ## Helper lemmas -/

lemma maxAbs_replicate_zero (n : ℕ) : maxAbs (List.replicate n (0 : ℚ)) = 0 := by
  induction n with
  | zero => rfl
  | succ k ih =>
    simp only [maxAbs, List.replicate_succ, List.map_cons, List.foldr_cons]
    simp only [maxAbs] at ih
    rw [ih]
    simp

lemma listMean_replicate_zero (n : ℕ) : listMean (List.replicate n (0 : ℚ)) = 0 := by
  simp [listMean]

/-! ## Claim theorems -/

/-- Claim C9: an all-zero input to the normalization stage yields a finite result
with no division by zero: the DC offset (the mean, itself `0`) is removed and
the amplitude-scaling branch is skipped because the maximum absolute
amplitude of the centered signal is `0`, so the output is the centered
(all-zero) signal itself. -/
theorem normalize_allzero_no_div (n : ℕ) :
    normalize_audio (List.replicate n 0) = List.replicate n 0 ∧
    maxAbs ((List.replicate n (0 : ℚ)).map
      (fun x => x - listMean (List.replicate n 0))) = 0 := by
  have hc : (List.replicate n (0 : ℚ)).map
      (fun x => x - listMean (List.replicate n 0)) = List.replicate n 0 := by
    rw [listMean_replicate_zero]
    simp
  refine ⟨?_, by rw [hc]; exact maxAbs_replicate_zero n⟩
  unfold normalize_audio
  by_cases hn : (List.replicate n (0 : ℚ)).length = 0
  · simp [hn]
  · simp only [hn, if_false]
    rw [hc, maxAbs_replicate_zero]
    simp

lemma anomaly_score_as_sum (rms maxA meanA var : ℚ) :
    anomaly_score rms maxA meanA var =
      min 1 (max 0
        ((if maxA > 3/10 then maxA * (4/10) else 0)
          + (if rms > 5/100 then rms * (3/10) else 0)
          + (if var > 1/100 then var * (2/10) else 0)
          + (if maxA - meanA > 1/10 then (maxA - meanA) * (1/10) else 0))) := by
  simp only [anomaly_score, zero_add]

/-- Claim C5: the Baseline Heuristic Scorer's output follows the specification's
formula exactly: `(0, 1/2)` on empty input, otherwise NG `(1, min 0.8
(0.5 + score))` when the clamped additive anomaly score exceeds `0.4` and OK
`(0, max 0.3 (0.7 - score))` otherwise — for every square-root routine and
every input signal (and, being a total function, it never raises). -/
theorem baseline_prediction_formula (sqrtF : ℚ → ℚ) (audio : List ℚ) :
    get_baseline_prediction sqrtF audio =
      if audio.length = 0 then (0, 1/2)
      else if signalAnomalyScore sqrtF audio > 4/10 then
        (1, min (8/10) (1/2 + signalAnomalyScore sqrtF audio))
      else (0, max (3/10) (7/10 - signalAnomalyScore sqrtF audio)) := by
  simp only [get_baseline_prediction, signalAnomalyScore,
    anomaly_score_as_sum]

/-- Claim C8: the anomaly score is monotone non-decreasing in the maximum absolute
amplitude when RMS, mean absolute amplitude and variance are held fixed. -/
theorem anomaly_score_mono_max (rms meanA var m₁ m₂ : ℚ) (hm : m₁ ≤ m₂) :
    anomaly_score rms m₁ meanA var ≤ anomaly_score rms m₂ meanA var := by
  unfold anomaly_score
  refine min_le_min le_rfl (max_le_max le_rfl ?_)
  have h1 : (if m₁ > 3/10 then m₁ * (4/10) else 0)
      ≤ (if m₂ > 3/10 then m₂ * (4/10) else 0) := by
    split_ifs with ha hb hb
    · linarith
    · linarith
    · linarith
    · linarith
  have h4 : (if m₁ - meanA > 1/10 then (m₁ - meanA) * (1/10) else 0)
      ≤ (if m₂ - meanA > 1/10 then (m₂ - meanA) * (1/10) else 0) := by
    split_ifs with ha hb hb
    · linarith
    · linarith
    · linarith
    · linarith
  linarith

/-- Witness for C8 at concrete statistics. -/
theorem anomaly_score_mono_max_witness :
    (0 : ℚ) ≤ 1 ∧ anomaly_score 0 0 0 0 ≤ anomaly_score 0 1 0 0 :=
  ⟨by norm_num, anomaly_score_mono_max 0 0 0 0 1 (by norm_num)⟩

/-- Claim C7: a `stop_recording` whose session id differs from the bound session
leaves the connection state unchanged and emits no outbound message. -/
theorem stop_mismatch_no_effect {α : Type} (processF : α → ResultDict)
    (st : ConnState) (sid : Option String)
    (h : sid ≠ st.recording_session) :
    handle_message processF st (InMsg.stop_recording sid) = (st, []) := by
  simp [handle_message, h]

/-- Witness for C7: a bound session `"s1"` receiving `stop_recording` for
`"s2"`. -/
theorem stop_mismatch_no_effect_witness :
    (some "s2" ≠ (ConnState.mk (some "s1") true).recording_session) ∧
    handle_message (fun _ : Unit => ResultDict.mk 0 0 0 none)
        (ConnState.mk (some "s1") true) (InMsg.stop_recording (some "s2"))
      = (ConnState.mk (some "s1") true, []) :=
  ⟨by decide, stop_mismatch_no_effect _ _ _ (by decide)⟩

/-- Claim C10: `start_recording` received while already Recording neither fails nor
is ignored — the handler unconditionally rebinds to the new session id,
discards the previous binding, and emits `recording_started` for the new
session. -/
theorem start_while_recording_rebinds {α : Type} (processF : α → ResultDict)
    (st : ConnState) (_h : st.is_processing = true) (sid : Option String) :
    handle_message processF st (InMsg.start_recording sid)
      = (ConnState.mk sid true, [OutMsg.recording_started sid]) := by
  simp [handle_message]

/-- Witness for C10: a second `start_recording` arriving while session
`"s1"` is already recording rebinds to `"s2"`. -/
theorem start_while_recording_rebinds_witness :
    ((ConnState.mk (some "s1") true).is_processing = true) ∧
    handle_message (fun _ : Unit => ResultDict.mk 0 0 0 none)
        (ConnState.mk (some "s1") true) (InMsg.start_recording (some "s2"))
      = (ConnState.mk (some "s2") true, [OutMsg.recording_started (some "s2")]) :=
  ⟨rfl, start_while_recording_rebinds _ _ rfl _⟩

lemma adjust_length_length (L : ℕ) (hL : 0 < L) (a : List ℚ) :
    (adjust_length L a).length = L := by
  unfold adjust_length pySliceLast
  split_ifs with h1 h2 h3 <;> simp_all <;> omega

/-- Claim C2: the conditioning pipeline always emits a vector of exactly the
configured length `L` (for every outcome of the resample/filter stages and
every toggle setting), the length fit keeping the trailing `L` samples of a
longer signal and right-padding a shorter one with zeros. -/
theorem condition_returns_length_L (sample_rate : Option ℕ) (target_rate : ℕ)
    (resampleF filterF : List ℚ → Option (List ℚ))
    (applyFilter normalizeB : Bool) (L : ℕ) (hL : 0 < L) :
    (∀ audio out, preprocess sample_rate target_rate resampleF filterF
        applyFilter normalizeB L audio = some out → out.length = L) ∧
    (∀ a : List ℚ, L < a.length →
        adjust_length L a = a.drop (a.length - L)) ∧
    (∀ a : List ℚ, a.length < L →
        adjust_length L a = a ++ List.replicate (L - a.length) 0) := by
  refine ⟨?_, ?_, ?_⟩
  · intro audio out hout
    unfold preprocess at hout
    cases hres : (if resampleNeeded sample_rate target_rate then
        resampleF audio else some audio) with
    | none => rw [hres] at hout; exact absurd hout (by simp)
    | some resampled =>
      rw [hres] at hout
      simp only [Option.some.injEq] at hout
      rw [← hout]
      exact adjust_length_length L hL _
  · intro a h
    unfold adjust_length pySliceLast
    rw [if_pos h, if_neg (by omega)]
  · intro a h
    unfold adjust_length
    rw [if_neg (by omega), if_pos h]

/-- Witness for C2: a two-sample signal conditioned to `L = 4` comes out with
length 4. -/
theorem condition_returns_length_L_witness :
    (0 < 4) ∧ ([(1 : ℚ), 2, 0, 0] : List ℚ).length = 4 :=
  ⟨by norm_num,
    (condition_returns_length_L none 44100 (fun a => some a) (fun a => some a)
        false false 4 (by norm_num)).1 [1, 2] [1, 2, 0, 0] (by decide)⟩

/-- Counterexample for C3: the claim says an exception in any pipeline stage
is caught and the stage skipped, so the pipeline never raises; but
`preprocess`'s own handler re-raises (audio_processor.py line 104), so a
resampling exception (here: a failing resampler on a one-sample signal at
48 kHz with target 44.1 kHz) escapes the pipeline. -/
theorem preprocess_raises_on_resample_failure :
    preprocess (some 48000) 44100 (fun _ => none) (fun a => some a)
      true true 4 [1] = none := by
  decide

/-- Claim C3 (amended): only the filter and normalization stages swallow their own
exceptions; the pipeline as a whole raises exactly when the resample stage
raises (and the cast and length-fit stages cannot raise) — for every filter
outcome `filterF`, including an always-failing one. -/
theorem preprocess_isSome_iff (sample_rate : Option ℕ) (target_rate : ℕ)
    (resampleF filterF : List ℚ → Option (List ℚ))
    (applyFilter normalizeB : Bool) (L : ℕ) (audio : List ℚ) :
    (preprocess sample_rate target_rate resampleF filterF
        applyFilter normalizeB L audio).isSome
      ↔ (resampleNeeded sample_rate target_rate = false ∨
          (resampleF audio).isSome) := by
  unfold preprocess
  cases hrn : resampleNeeded sample_rate target_rate with
  | false => simp
  | true =>
    cases hres : resampleF audio with
    | none => simp [hres]
    | some resampled => simp [hres]

/-- Counterexample for C6: on an empty signal with window 8 and hop 4 the
claimed count `⌊(0-8)/4⌋+1 = -1` is negative, and `np.zeros((-1, 8))` raises
`ValueError` instead of returning that many windows. -/
theorem sliding_windows_raises_on_negative_count :
    create_sliding_windows [] 8 4 = none := by
  decide

lemma fdiv_bounds (a : ℤ) {b : ℤ} (hb : 0 < b) :
    b * (a.fdiv b) ≤ a ∧ a < b * (a.fdiv b) + b := by
  have h1 := Int.fdiv_add_fmod a b
  have h2 := Int.fmod_nonneg' a hb
  have h3 := Int.fmod_lt_of_pos a hb
  constructor <;> linarith

/-- Claim C6 (amended): when the hop is positive and the window count
`⌊(len-w)/h⌋+1` is nonnegative (`w ≤ len + h`), `create_sliding_windows`
returns exactly that many windows, window `i` being the `w` samples starting
at offset `i·h`; when the count is negative the call raises (see the
counterexample). -/
theorem sliding_windows_spec (audio : List ℚ) (w h : ℕ) (hh : 0 < h)
    (hcount : w ≤ audio.length + h) :
    ∃ ws, create_sliding_windows audio w h = some ws ∧
      (ws.length : ℤ) = Int.fdiv ((audio.length : ℤ) - (w : ℤ)) h + 1 ∧
      ∀ i, i < ws.length →
        ws.getD i [] = (audio.drop (i * h)).take w ∧
        (ws.getD i []).length = w := by
  have hbz : (0 : ℤ) < (h : ℤ) := by exact_mod_cast hh
  obtain ⟨hlow, hhigh⟩ := fdiv_bounds ((audio.length : ℤ) - (w : ℤ)) hbz
  set q : ℤ := Int.fdiv ((audio.length : ℤ) - (w : ℤ)) h with hq
  have hcast : (w : ℤ) ≤ (audio.length : ℤ) + h := by exact_mod_cast hcount
  have hqm1 : -1 ≤ q := by nlinarith
  have hn0 : 0 ≤ q + 1 := by omega
  have hwin : ∀ i : ℕ, i < (q + 1).toNat → i * h + w ≤ audio.length := by
    intro i hi
    have hiq : (i : ℤ) ≤ q := by
      have := (Int.lt_toNat.mp hi)
      omega
    have : (i : ℤ) * h ≤ q * h :=
      mul_le_mul_of_nonneg_right hiq (le_of_lt hbz)
    have : (i : ℤ) * h + w ≤ (audio.length : ℤ) := by nlinarith
    exact_mod_cast this
  have hlen : ∀ i : ℕ, i < (q + 1).toNat →
      ((audio.drop (i * h)).take w).length = w := by
    intro i hi
    have := hwin i hi
    simp only [List.length_take, List.length_drop]
    omega
  refine ⟨(List.range (q + 1).toNat).map
    (fun i => (audio.drop (i * h)).take w), ?_, ?_, ?_⟩
  · unfold create_sliding_windows
    rw [if_neg (by omega)]
    simp only [← hq]
    rw [if_neg (by omega)]
    rw [if_pos]
    rw [List.all_eq_true]
    intro x hx
    rw [List.mem_map] at hx
    obtain ⟨i, hi, hxi⟩ := hx
    rw [List.mem_range] at hi
    subst hxi
    exact decide_eq_true (hlen i hi)
  · simp only [List.length_map, List.length_range]
    rw [Int.toNat_of_nonneg hn0]
  · intro i hi
    simp only [List.length_map, List.length_range] at hi
    have hget : ((List.range (q + 1).toNat).map
        (fun i => (audio.drop (i * h)).take w)).getD i []
        = (audio.drop (i * h)).take w := by
      rw [List.getD_eq_getElem _ _ (by simpa using hi)]
      simp
    exact ⟨hget, by rw [hget]; exact hlen i hi⟩

/-- Witness for C6 (amended): `[1,2,3,4,5]` with window 3 and hop 2 yields
`⌊(5-3)/2⌋+1 = 2` windows. -/
theorem sliding_windows_spec_witness :
    (0 < 2) ∧ (3 ≤ 5 + 2) ∧
    ∃ ws, create_sliding_windows [1, 2, 3, 4, 5] 3 2 = some ws ∧
      (ws.length : ℤ) =
        Int.fdiv ((([(1 : ℚ), 2, 3, 4, 5] : List ℚ).length : ℤ) - 3) 2 + 1 ∧
      ∀ i, i < ws.length →
        ws.getD i [] = (([(1 : ℚ), 2, 3, 4, 5] : List ℚ).drop (i * 2)).take 3 ∧
        (ws.getD i []).length = 3 :=
  ⟨by norm_num, by norm_num,
    sliding_windows_spec [1, 2, 3, 4, 5] 3 2 (by norm_num) (by norm_num)⟩

/-- The action of the per-head attention core on one query row: both code
paths send query row `q` to `softmax((q Kᵀ) · s) V`, independently of every
other query row. -/
def attnRow (norm : List ℚ → List ℚ) (s : ℚ) (K V : Mat) (q : List ℚ) :
    List ℚ :=
  (List.transpose V).map
    (fun col => dotProd
      (norm (List.map (fun x => x * s)
        ((List.transpose (List.transpose K)).map (fun c => dotProd q c))))
      col)

lemma attnHead_eq_map (norm : List ℚ → List ℚ) (s : ℚ) (K V Q : Mat) :
    attnHead norm s K V Q = Q.map (attnRow norm s K V) := by
  simp only [attnHead, matMul, matScale, rowNorm, List.map_map]
  rfl

lemma chunksGo_flatten (c : ℕ) (hc : 0 < c) :
    ∀ (fuel : ℕ) (l : List (List ℚ)), l.length ≤ fuel →
      (chunksGo c fuel l).flatten = l := by
  intro fuel
  induction fuel with
  | zero =>
    intro l hl
    have : l = [] := List.eq_nil_of_length_eq_zero (by omega)
    subst this
    rfl
  | succ k ih =>
    intro l hl
    cases l with
    | nil => rfl
    | cons x xs =>
      show ((x :: xs).take c :: chunksGo c k ((x :: xs).drop c)).flatten
        = x :: xs
      rw [List.flatten_cons,
        ih ((x :: xs).drop c)
          (by simp only [List.length_drop, List.length_cons]
              simp only [List.length_cons] at hl
              omega)]
      exact List.take_append_drop c (x :: xs)

lemma chunkedAttnHead_eq (c : ℕ) (hc : 0 < c) (norm : List ℚ → List ℚ)
    (s : ℚ) (K V Q : Mat) :
    chunkedAttnHead c norm s K V Q = attnHead norm s K V Q := by
  unfold chunkedAttnHead chunkRows
  rw [List.map_congr_left (fun ch _ => attnHead_eq_map norm s K V ch),
    ← List.map_flatten, chunksGo_flatten c hc Q.length Q le_rfl,
    attnHead_eq_map]

lemma chunkedAttnHead_256 (norm : List ℚ → List ℚ) (s : ℚ) (K V Q : Mat) :
    chunkedAttnHead 256 norm s K V Q = attnHead norm s K V Q :=
  chunkedAttnHead_eq 256 (by norm_num) norm s K V Q

/-- Claim C4: the memory-efficient (chunked) attention path computes exactly the
same output as the standard unchunked multi-head attention for every input
sequence, head count, head width, weight setting, scale, and row-wise softmax
(dropout inactive, as in evaluation mode): chunking the query rows commutes
with a computation that treats each query row independently. -/
theorem attention_chunked_equals_standard (w : AttnWeights)
    (norm : List ℚ → List ℚ) (s : ℚ) (H d : ℕ) (x : Mat) :
    memory_efficient_attention w norm s H d x
      = standard_attention w norm s H d x := by
  unfold memory_efficient_attention standard_attention
  simp only [chunkedAttnHead_256]

/-- Counterexample for C1: when signal conditioning raises (here a failing
resampler on the one-sample frame `[1]`), `process_audio_message` does NOT
return the Baseline Heuristic Scorer's result on the best available signal —
the baseline on the raw frame `[1]` is `(NG, 0.8)` — but the fixed default
`prediction 0, confidence 0.0` of main.py line 399, a confidence the baseline
scorer can never produce (its confidences are `0.5` or at least `0.3`). -/
theorem orchestrator_default_on_conditioning_failure :
    process_audio_message true [1] (some 48000) 44100 (fun _ => none)
        (fun a => some a) true true 4 true true (fun _ => some (0, 9/10)) id
      = ResultDict.mk 0 0 0 (some "processing exception") ∧
    get_baseline_prediction id [1] = (1, 4/5) := by
  refine ⟨by decide, ?_⟩
  norm_num [get_baseline_prediction, listMean, maxAbs, anomaly_score,
    min_def, max_def]

/-- Claim C1 (amended): the orchestrator never propagates an exception — every
path yields a `ResultDict` — but the fallback is split: an exception inside
model scoring (the torch forward pass) is absorbed by `ModelManager.predict`,
which returns the Baseline Heuristic Scorer's result on the (length-fitted)
conditioned signal, with NO warning annotation; an exception during signal
conditioning (or a failed model load) instead aborts to the fixed default
`prediction 0, confidence 0.0` annotated with the error. -/
theorem orchestrator_fallback_behaviour :
    (∀ (sample_rate : Option ℕ) (target_rate : ℕ)
        (resampleF filterF : List ℚ → Option (List ℚ))
        (applyFilter normalizeB : Bool) (L : ℕ)
        (modelLoaded loadOk : Bool) (forwardF : List ℚ → Option (ℤ × ℚ))
        (sqrtF : ℚ → ℚ) (audio processed : List ℚ),
        audio.length ≠ 0 →
        preprocess sample_rate target_rate resampleF filterF applyFilter
          normalizeB L audio = some processed →
        processed.length ≠ 0 →
        ¬(modelLoaded = false ∧ loadOk = false) →
        forwardF (if processed.length ≠ L then adjust_length L processed
                  else processed) = none →
        process_audio_message true audio sample_rate target_rate resampleF
            filterF applyFilter normalizeB L modelLoaded loadOk forwardF sqrtF
          = ResultDict.mk
              (get_baseline_prediction sqrtF
                (if processed.length ≠ L then adjust_length L processed
                 else processed)).1
              (get_baseline_prediction sqrtF
                (if processed.length ≠ L then adjust_length L processed
                 else processed)).2
              audio.length none) ∧
    (∀ (sample_rate : Option ℕ) (target_rate : ℕ)
        (resampleF filterF : List ℚ → Option (List ℚ))
        (applyFilter normalizeB : Bool) (L : ℕ)
        (modelLoaded loadOk : Bool) (forwardF : List ℚ → Option (ℤ × ℚ))
        (sqrtF : ℚ → ℚ) (audio : List ℚ),
        audio.length ≠ 0 →
        preprocess sample_rate target_rate resampleF filterF applyFilter
          normalizeB L audio = none →
        process_audio_message true audio sample_rate target_rate resampleF
            filterF applyFilter normalizeB L modelLoaded loadOk forwardF sqrtF
          = ResultDict.mk 0 0 0 (some "processing exception")) := by
  constructor
  · intro sr tr rF fF af nb L ml lo fwd sq audio processed h1 h2 h3 h4 h5
    unfold process_audio_message predict
    simp only [h1, h2, h3, h4, h5]
    simp
  · intro sr tr rF fF af nb L ml lo fwd sq audio h1 h2
    unfold process_audio_message
    simp only [h1, h2]
    simp

/-- Witness for C1 (amended): a forward-pass failure on the conditioned frame
`[1,1,1,1]` yields the baseline result `(NG, 0.8)` with no warning, while a
conditioning failure on `[1]` yields the fixed default. -/
theorem orchestrator_fallback_behaviour_witness :
    process_audio_message true [1, 1, 1, 1] none 44100 (fun a => some a)
        (fun a => some a) false false 4 true true (fun _ => none) id
      = ResultDict.mk 1 (4/5) 4 none ∧
    process_audio_message true [1] (some 48000) 44100 (fun _ => none)
        (fun a => some a) false false 4 true true (fun _ => none) id
      = ResultDict.mk 0 0 0 (some "processing exception") := by
  constructor
  · have h := orchestrator_fallback_behaviour.1 none 44100 (fun a => some a)
      (fun a => some a) false false 4 true true (fun _ => none) id
      [1, 1, 1, 1] [1, 1, 1, 1] (by decide) (by decide) (by decide)
      (by decide) rfl
    rw [h]
    norm_num [get_baseline_prediction, listMean, maxAbs, anomaly_score,
      min_def, max_def]
  · exact orchestrator_fallback_behaviour.2 (some 48000) 44100 (fun _ => none)
      (fun a => some a) false false 4 true true (fun _ => none) id
      [1] (by decide) (by decide)

end SoundDitect
